import Mathlib

/-!
# Verification of the tharadisewa lifecycle core

Shallow embedding of the status-lifecycle, financial-computation,
temporal-predicate and code-generation logic of the `Rapair`, `bill`,
`services` and `license` Django apps, together with theorems settling
the spec claims about them.

Conventions of the embedding:
* timestamps (`timezone.now()`, `due_date`, `ex_date`, …) are integers;
* `Decimal` currency values are rationals (`Decimal` arithmetic in the
  source is exact, so `ℚ` contains every reachable value);
* a Django model instance is a structure holding the fields the claims
  touch; `save()` methods become pure state transformers;
* a serializer validation that can raise `ValidationError` becomes a
  `Bool`-valued acceptance function (`true` = validation passes).
-/

namespace TharadiSewa

/-! ## Status enumerations (the `choices` lists of each model) -/

/-- `Repair.status` choices, `Rapair/models.py`. -/
inductive RepairStatus where
  | requested | diagnosed | in_progress | waiting_parts
  | completed | cancelled | failed
deriving DecidableEq, Fintype

/-- `Bill.status` choices, `bill/models.py`. -/
inductive BillStatus where
  | pending | paid | overdue | cancelled
deriving DecidableEq, Fintype

/-- `Service.status` choices, `services/models.py`. -/
inductive ServiceStatus where
  | requested | in_progress | completed | cancelled | on_hold
deriving DecidableEq, Fintype

/-- `License.status` choices, `license/models.py`. -/
inductive LicenseStatus where
  | active | expired | suspended | revoked | pending
deriving DecidableEq, Fintype

/-! ## LifecycleStateMachine: the validators the code actually runs -/

/-- The `valid_transitions` dict of
`RepairUpdateSerializer.validate_status` (`Rapair/serializers.py`). -/
def repairValidTransitions : RepairStatus → List RepairStatus
  | .requested => [.diagnosed, .in_progress, .cancelled]
  | .diagnosed => [.in_progress, .waiting_parts, .cancelled]
  | .in_progress => [.waiting_parts, .completed, .failed, .cancelled]
  | .waiting_parts => [.in_progress, .completed, .cancelled]
  | .completed => []
  | .cancelled => []
  | .failed => [.requested, .diagnosed]

/-- `RepairUpdateSerializer.validate_status` (`Rapair/serializers.py`):
raises when the instance is terminal and the value differs, or when the
value is neither listed for the current status nor equal to it. -/
def repairValidateStatus (current value : RepairStatus) : Bool :=
  if (current = .completed ∨ current = .cancelled) ∧ value ≠ current then
    false
  else if value ∉ repairValidTransitions current ∧ value ≠ current then
    false
  else
    true

/-- `BillUpdateSerializer.validate_status` (`bill/serializers.py`): the
only check is that a `paid` bill cannot move to a different status. -/
def billValidateStatus (current value : BillStatus) : Bool :=
  if current = .paid ∧ value ≠ .paid then false else true

/-- `ServiceUpdateSerializer.validate_status` (`services/serializers.py`):
the only check is that a `completed` service cannot change status. -/
def serviceValidateStatus (current value : ServiceStatus) : Bool :=
  if current = .completed ∧ value ≠ .completed then false else true

/-! ## LifecycleStateMachine: the transition tables of spec §4.2

These definitions follow the spec's words, for comparison with the
validators above (refinement check of claim C1). -/

/-- Spec §4.2 Repair transition table. -/
def specRepairAllows : RepairStatus → RepairStatus → Bool
  | .requested, t => t ∈ [RepairStatus.diagnosed, .in_progress, .cancelled]
  | .diagnosed, t => t ∈ [RepairStatus.in_progress, .waiting_parts, .cancelled]
  | .in_progress, t => t ∈ [RepairStatus.waiting_parts, .completed, .failed, .cancelled]
  | .waiting_parts, t => t ∈ [RepairStatus.in_progress, .completed, .cancelled]
  | .completed, _ => false
  | .cancelled, _ => false
  | .failed, t => t ∈ [RepairStatus.requested, .diagnosed]

/-- Spec §4.2 Bill transition table. -/
def specBillAllows : BillStatus → BillStatus → Bool
  | .pending, t => t ∈ [BillStatus.paid, .cancelled, .overdue]
  | .paid, _ => false
  | .overdue, t => t ∈ [BillStatus.paid, .cancelled]
  | .cancelled, _ => false

/-- Spec §4.2 Service transition table. -/
def specServiceAllows : ServiceStatus → ServiceStatus → Bool
  | .requested, t => t ∈ [ServiceStatus.in_progress, .cancelled, .on_hold]
  | .in_progress, t => t ∈ [ServiceStatus.completed, .cancelled, .on_hold]
  | .on_hold, t => t ∈ [ServiceStatus.in_progress, .cancelled]
  | .completed, _ => false
  | .cancelled, _ => false

/-- Spec §4.2 License transition table. -/
def specLicenseAllows : LicenseStatus → LicenseStatus → Bool
  | .pending, t => t ∈ [LicenseStatus.active]
  | .active, t => t ∈ [LicenseStatus.suspended, .expired, .revoked]
  | .suspended, t => t ∈ [LicenseStatus.active, .revoked]
  | .expired, t => t ∈ [LicenseStatus.active]
  | .revoked, _ => false

/-! ## License model state and operations (`license/models.py`, `license/views.py`) -/

/-- The `License` fields the lifecycle claims touch. -/
structure LicenseState where
  status : LicenseStatus
  ex_date : Int
  activated_date : Option Int
  activation_count : Nat
  terms_accepted : Bool
  terms_accepted_date : Option Int
deriving DecidableEq

/-- `License.activate` (`license/models.py`): unconditionally sets
`status = active`, overwrites `activated_date` with now, increments
`activation_count`, and accepts terms if not yet accepted. -/
def licenseActivate (now : Int) (st : LicenseState) : LicenseState :=
  { st with
    status := .active
    activated_date := some now
    activation_count := st.activation_count + 1
    terms_accepted := true
    terms_accepted_date :=
      if st.terms_accepted then st.terms_accepted_date else some now }

/-- `License.suspend` (`license/models.py`): unconditional. -/
def licenseSuspend (st : LicenseState) : LicenseState :=
  { st with status := .suspended }

/-- `License.revoke` (`license/models.py`): unconditional. -/
def licenseRevoke (st : LicenseState) : LicenseState :=
  { st with status := .revoked }

/-- `License.is_expired` (`license/models.py`): `now > ex_date`. -/
def licenseIsExpired (now : Int) (st : LicenseState) : Bool :=
  now > st.ex_date

/-- Possible responses of the `activate` view action. -/
inductive ActResponse where
  | ok | errRevoked | errExpired
deriving DecidableEq, Fintype

/-- `LicenseViewSet.activate` (`license/views.py`): returns a 400 error
without touching the record when the license is revoked or expired,
otherwise runs `License.activate`.  The second component is the stored
state after the request. -/
def licenseViewActivate (now : Int) (st : LicenseState) :
    ActResponse × LicenseState :=
  if st.status = .revoked then (.errRevoked, st)
  else if licenseIsExpired now st then (.errExpired, st)
  else (.ok, licenseActivate now st)

/-! ## Claim C1 -/

/-- Claim C1, counterexample.  The claim states that for every entity
kind, `(current, target)` pairs absent from the spec §4.2 table are
rejected; in particular License `suspended` is reachable only from
`active`.  The code accepts `suspend()` on a `pending` license and a
Bill status write `cancelled → pending`, both outside the tables. -/
theorem c1_counterexample :
    (licenseSuspend
      { status := .pending, ex_date := 0, activated_date := none,
        activation_count := 0, terms_accepted := false,
        terms_accepted_date := none }).status = .suspended
    ∧ specLicenseAllows .pending .suspended = false
    ∧ billValidateStatus .cancelled .pending = true
    ∧ specBillAllows .cancelled .pending = false := by
  refine ⟨rfl, by decide, by decide, by decide⟩

/-- Claim C1, amended: only Repair enforces its full table (plus
same-status no-ops).  Bill rejects exactly `paid → (≠ paid)`; Service
rejects exactly `completed → (≠ completed)`; License `suspend`/`revoke`
succeed from every state, including states outside the spec table. -/
theorem c1_amended :
    (∀ c v : RepairStatus,
      repairValidateStatus c v = (specRepairAllows c v || c == v))
    ∧ (∀ c v : BillStatus,
      billValidateStatus c v = (specBillAllows c v || c == v || !(c == .paid)))
    ∧ (∀ c v : ServiceStatus,
      serviceValidateStatus c v
        = (specServiceAllows c v || c == v || !(c == .completed)))
    ∧ (∀ st : LicenseState,
      (licenseSuspend st).status = .suspended
      ∧ (licenseRevoke st).status = .revoked) := by
  refine ⟨by decide, by decide, by decide, fun st => ⟨rfl, rfl⟩⟩

/-! ## FinancialCalculator: the amount block of `Bill.save` (`bill/models.py`) -/

/-- The financial fields of a `Bill`. -/
structure BillMoney where
  subtotal : ℚ
  tax_rate : ℚ
  tax_amount : ℚ
  discount_rate : ℚ
  discount_amount : ℚ
  amount : ℚ
deriving DecidableEq

/-- The amount-calculation block of `Bill.save` (`bill/models.py`):
`tax_amount` is recomputed only when `tax_rate > 0`, `discount_amount`
only when `discount_rate > 0`, and `amount` is always rebuilt from the
(possibly stale) stored amounts.  No rounding is applied. -/
def billSaveAmounts (st : BillMoney) : BillMoney :=
  let tax_amount :=
    if st.tax_rate > 0 then st.subtotal * st.tax_rate / 100 else st.tax_amount
  let discount_amount :=
    if st.discount_rate > 0 then st.subtotal * st.discount_rate / 100
    else st.discount_amount
  { st with
    tax_amount := tax_amount
    discount_amount := discount_amount
    amount := st.subtotal + tax_amount - discount_amount }

/-- Modelled from the spec: rounding to 2 decimal places using
round-half-up (spec §4.3); used only to compare against the code. -/
def specRoundHalfUp2 (q : ℚ) : ℚ := (⌊q * 100 + 1 / 2⌋ : ℚ) / 100

/-! ## Claim C2 -/

/-- Claim C2, counterexample.  A bill saved with `tax_rate = 10` and
then saved again after `tax_rate` is changed to `0` keeps the stale
`tax_amount = 100` (the claim demands `subtotal * 0 / 100 = 0`); and a
save with `subtotal = 0.01`, `tax_rate = 0.10` stores the unrounded
`tax_amount = 0.00001`, not its round-half-up 2-decimal value `0`. -/
theorem c2_counterexample :
    (billSaveAmounts
      { billSaveAmounts
          { subtotal := 1000, tax_rate := 10, tax_amount := 0,
            discount_rate := 5, discount_amount := 0, amount := 0 } with
        tax_rate := 0 }).tax_amount = 100
    ∧ (100 : ℚ) ≠ 1000 * 0 / 100
    ∧ (billSaveAmounts
        { subtotal := 1 / 100, tax_rate := 1 / 10, tax_amount := 0,
          discount_rate := 0, discount_amount := 0, amount := 0 }).tax_amount
      = 1 / 100000
    ∧ specRoundHalfUp2 (1 / 100000) = 0
    ∧ (1 / 100000 : ℚ) ≠ 0 := by
  refine ⟨by norm_num [billSaveAmounts], by norm_num,
    by norm_num [billSaveAmounts], ?_, by norm_num⟩
  have h : ⌊(1 / 100000 : ℚ) * 100 + 1 / 2⌋ = 0 := by
    rw [Int.floor_eq_zero_iff]
    constructor <;> norm_num
  rw [specRoundHalfUp2, h]
  norm_num

/-- Claim C2, amended: when both rates are strictly positive, a save
stores the exact (unrounded) values `tax_amount = subtotal * tax_rate /
100`, `discount_amount = subtotal * discount_rate / 100` and `amount =
subtotal + tax_amount − discount_amount`; a rate equal to `0` leaves
the previously stored amount untouched instead of zeroing it, and no
rounding is applied at storage. -/
theorem c2_amended (st : BillMoney) (ht : 0 < st.tax_rate)
    (hd : 0 < st.discount_rate) :
    (billSaveAmounts st).tax_amount = st.subtotal * st.tax_rate / 100
    ∧ (billSaveAmounts st).discount_amount
      = st.subtotal * st.discount_rate / 100
    ∧ (billSaveAmounts st).amount
      = st.subtotal + (billSaveAmounts st).tax_amount
        - (billSaveAmounts st).discount_amount := by
  refine ⟨by simp [billSaveAmounts, ht], by simp [billSaveAmounts, hd],
    by simp [billSaveAmounts]⟩

/-- Claim C2 witness: the spec's own example `subtotal=1000,
taxRatePct=10, discountRatePct=5` yields `100`, `50`, `1050`. -/
theorem c2_witness :
    (0 : ℚ) < 10 ∧ (0 : ℚ) < 5
    ∧ (billSaveAmounts
        { subtotal := 1000, tax_rate := 10, tax_amount := 0,
          discount_rate := 5, discount_amount := 0, amount := 0 }).tax_amount
      = 100
    ∧ (billSaveAmounts
        { subtotal := 1000, tax_rate := 10, tax_amount := 0,
          discount_rate := 5, discount_amount := 0, amount := 0 }).discount_amount
      = 50
    ∧ (billSaveAmounts
        { subtotal := 1000, tax_rate := 10, tax_amount := 0,
          discount_rate := 5, discount_amount := 0, amount := 0 }).amount
      = 1050 := by
  have h := c2_amended
    { subtotal := 1000, tax_rate := 10, tax_amount := 0,
      discount_rate := 5, discount_amount := 0, amount := 0 }
    (by norm_num) (by norm_num)
  refine ⟨by norm_num, by norm_num, ?_, ?_, ?_⟩
  · rw [h.1]; norm_num
  · rw [h.2.1]; norm_num
  · rw [h.2.2, h.1, h.2.1]; norm_num

/-! ## BillUpdateSerializer acceptance (`bill/serializers.py`) -/

/-- The writable fields of `BillUpdateSerializer`; `some x` means the
update request supplies the field. -/
structure BillUpdateAttrs where
  status : Option BillStatus
  due_date : Option (Option Int)
  paid_date : Option (Option Int)
  notes : Option String
  tax_rate : Option ℚ
  discount_rate : Option ℚ
  subtotal : Option ℚ
deriving DecidableEq

/-- Whether `BillUpdateSerializer` accepts an update of a bill whose
stored status is `instStatus`: `validate_status` runs only when the
request supplies `status`; the cross-field `validate` merely augments
the attrs (stamps `paid_date`, recomputes amounts) and never raises. -/
def billUpdateValidate (instStatus : BillStatus) (attrs : BillUpdateAttrs) :
    Bool :=
  match attrs.status with
  | some v => billValidateStatus instStatus v
  | none => true

/-! ## Claim C5 -/

/-- Claim C5, counterexample.  On a `paid` bill, an update that changes
`subtotal` (no status supplied) passes validation, contradicting the
claimed terminal-state field lock; the notes-only update also passes
(that half of the claim holds). -/
theorem c5_counterexample :
    billUpdateValidate .paid
      { status := none, due_date := none, paid_date := none, notes := none,
        tax_rate := none, discount_rate := none, subtotal := some 500 } = true
    ∧ billUpdateValidate .paid
      { status := none, due_date := none, paid_date := none,
        notes := some "updated", tax_rate := none, discount_rate := none,
        subtotal := none } = true := ⟨rfl, rfl⟩

/-- Claim C5, amended: once a bill is `paid`, only the `status` field is
locked — an update is accepted iff it omits `status` or re-submits
`paid`; every other field, including `subtotal`, `tax_rate`,
`discount_rate`, `due_date` and `notes`, may still change. -/
theorem c5_amended (attrs : BillUpdateAttrs) :
    billUpdateValidate .paid attrs = true
    ↔ (attrs.status = none ∨ attrs.status = some .paid) := by
  rcases h : attrs.status with _ | v
  · simp [billUpdateValidate, h]
  · cases v <;> simp [billUpdateValidate, h, billValidateStatus]

/-- Claim C5 witness: the amended lock at concrete inputs — a `status
:= cancelled` write on a paid bill is rejected, a subtotal-only write is
accepted. -/
theorem c5_witness :
    (billUpdateValidate .paid
      { status := some .cancelled, due_date := none, paid_date := none,
        notes := none, tax_rate := none, discount_rate := none,
        subtotal := none } = true
      ↔ ((some BillStatus.cancelled : Option BillStatus) = none
          ∨ (some BillStatus.cancelled : Option BillStatus) = some .paid))
    ∧ billUpdateValidate .paid
      { status := some .cancelled, due_date := none, paid_date := none,
        notes := none, tax_rate := none, discount_rate := none,
        subtotal := none } = false :=
  ⟨c5_amended _, rfl⟩

/-! ## Claim C4 -/

/-- Claim C4: `activate` on a revoked license answers `LicenseRevoked`
and leaves the stored record unchanged; on a non-revoked license whose
`ex_date` is in the past it answers `LicenseExpired` and leaves the
record unchanged (the revoked check runs first, as in spec §4.5). -/
theorem c4_activate_rejections :
    (∀ (now : Int) (st : LicenseState), st.status = .revoked →
      licenseViewActivate now st = (.errRevoked, st))
    ∧ (∀ (now : Int) (st : LicenseState), st.status ≠ .revoked →
      st.ex_date < now → licenseViewActivate now st = (.errExpired, st)) := by
  constructor
  · intro now st h
    simp [licenseViewActivate, h]
  · intro now st h h2
    have hexp : licenseIsExpired now st = true := by
      simp [licenseIsExpired]; exact h2
    simp [licenseViewActivate, h, hexp]

/-- Claim C4 witness: a pending license with `ex_date = 20` activated at
`now = 50` is refused as expired with no state change; a revoked one is
refused as revoked with no state change. -/
theorem c4_witness :
    licenseViewActivate 50
      { status := .revoked, ex_date := 100, activated_date := none,
        activation_count := 0, terms_accepted := false,
        terms_accepted_date := none }
      = (.errRevoked,
        { status := .revoked, ex_date := 100, activated_date := none,
          activation_count := 0, terms_accepted := false,
          terms_accepted_date := none })
    ∧ licenseViewActivate 50
      { status := .pending, ex_date := 20, activated_date := none,
        activation_count := 0, terms_accepted := false,
        terms_accepted_date := none }
      = (.errExpired,
        { status := .pending, ex_date := 20, activated_date := none,
          activation_count := 0, terms_accepted := false,
          terms_accepted_date := none }) :=
  ⟨c4_activate_rejections.1 50 _ rfl,
    c4_activate_rejections.2 50 _ (by decide) (by decide)⟩

/-! ## Claim C7 -/

/-- Claim C7, counterexample.  Re-activating a suspended license whose
`activated_date` is already set (`some 5`) overwrites it with the
current time (`some 50`); the claim says a re-activation leaves the
original `activated_date` unchanged. -/
theorem c7_counterexample :
    (licenseViewActivate 50
      { status := .suspended, ex_date := 100, activated_date := some 5,
        activation_count := 3, terms_accepted := true,
        terms_accepted_date := some 1 }).1 = .ok
    ∧ ((licenseViewActivate 50
      { status := .suspended, ex_date := 100, activated_date := some 5,
        activation_count := 3, terms_accepted := true,
        terms_accepted_date := some 1 }).2).activated_date = some 50
    ∧ some (50 : Int) ≠ some 5 := ⟨rfl, rfl, by decide⟩

/-- Claim C7, amended: every accepted activation via `activate()`
unconditionally re-stamps `activated_date` with the current time
(overwriting any previous value) and increments `activation_count` by
exactly one. -/
theorem c7_amended (now : Int) (st st' : LicenseState)
    (h : licenseViewActivate now st = (.ok, st')) :
    st'.activated_date = some now
    ∧ st'.activation_count = st.activation_count + 1 := by
  unfold licenseViewActivate at h
  split_ifs at h
  · simp at h
  · simp at h
  · rw [Prod.mk.injEq] at h
    obtain ⟨-, rfl⟩ := h
    exact ⟨rfl, rfl⟩

/-- Claim C7 witness: activating a fresh pending license at `now = 50`
stamps `activated_date = 50` and bumps the count from 0 to 1. -/
theorem c7_witness :
    ((licenseViewActivate 50
      { status := .pending, ex_date := 100, activated_date := none,
        activation_count := 0, terms_accepted := false,
        terms_accepted_date := none }).2).activated_date = some 50
    ∧ ((licenseViewActivate 50
      { status := .pending, ex_date := 100, activated_date := none,
        activation_count := 0, terms_accepted := false,
        terms_accepted_date := none }).2).activation_count = 0 + 1 :=
  c7_amended 50
    { status := .pending, ex_date := 100, activated_date := none,
      activation_count := 0, terms_accepted := false,
      terms_accepted_date := none } _ rfl

/-! ## TemporalPolicy: the `is_overdue` properties -/

/-- `Bill.is_overdue` (`bill/models.py`): requires `status == 'pending'`
— a bill already in status `overdue`, `paid` or `cancelled` reports
`False`. -/
def billIsOverdue (now : Int) (due_date : Option Int) (status : BillStatus) :
    Bool :=
  match due_date with
  | some d => if status = .pending then decide (now > d) else false
  | none => false

/-- `Repair.is_overdue` (`Rapair/models.py`): `estimated_completion`
set, status not in `['completed', 'cancelled']`, and now past it. -/
def repairIsOverdue (now : Int) (estimated_completion : Option Int)
    (status : RepairStatus) : Bool :=
  match estimated_completion with
  | some d =>
    if status ≠ .completed ∧ status ≠ .cancelled then decide (now > d)
    else false
  | none => false

/-- `Service.is_overdue` (`services/models.py`): `scheduled_date` set,
status not in `['completed', 'cancelled']`, and now past it. -/
def serviceIsOverdue (now : Int) (scheduled_date : Option Int)
    (status : ServiceStatus) : Bool :=
  match scheduled_date with
  | some d =>
    if status ≠ .completed ∧ status ≠ .cancelled then decide (now > d)
    else false
  | none => false

/-- Modelled from the spec: `isOverdue(deadline, status, terminal) =
deadline ≠ null ∧ now() > deadline ∧ status ∉ terminalStatuses`
(spec §4.4); used only to compare against the code. -/
def specIsOverdue (now : Int) (deadline : Option Int) (isTerminal : Bool) :
    Bool :=
  match deadline with
  | some d => decide (now > d) && !isTerminal
  | none => false

/-- Spec §4.2 terminal states of Bill: `paid`, `cancelled`. -/
def specBillTerminal (s : BillStatus) : Bool :=
  s = .paid ∨ s = .cancelled

/-- Spec §4.2 terminal states of Repair: `completed`, `cancelled`. -/
def specRepairTerminal (s : RepairStatus) : Bool :=
  s = .completed ∨ s = .cancelled

/-- Spec §4.2 terminal states of Service: `completed`, `cancelled`. -/
def specServiceTerminal (s : ServiceStatus) : Bool :=
  s = .completed ∨ s = .cancelled

/-! ## Claim C6 -/

/-- Claim C6, counterexample.  A bill in the non-terminal status
`overdue` with `due_date = 5` in the past (`now = 10`) must be overdue
per the claim's predicate, but `Bill.is_overdue` answers `false`
because it checks `status == 'pending'`, not non-terminality. -/
theorem c6_counterexample :
    billIsOverdue 10 (some 5) .overdue = false
    ∧ specIsOverdue 10 (some 5) (specBillTerminal .overdue) = true :=
  ⟨rfl, rfl⟩

/-- Claim C6, amended: Repair and Service implement exactly the spec
predicate (deadline set, in the past, status non-terminal); Bill
additionally requires `status = pending`, so bills whose status is
`overdue` report `false` even with a past `due_date`. -/
theorem c6_amended :
    (∀ (now : Int) (d : Option Int) (st : RepairStatus),
      repairIsOverdue now d st = specIsOverdue now d (specRepairTerminal st))
    ∧ (∀ (now : Int) (d : Option Int) (st : ServiceStatus),
      serviceIsOverdue now d st = specIsOverdue now d (specServiceTerminal st))
    ∧ (∀ (now : Int) (d : Option Int) (st : BillStatus),
      billIsOverdue now d st
        = (specIsOverdue now d (specBillTerminal st) && (st == .pending))) := by
  refine ⟨fun now d st => ?_, fun now d st => ?_, fun now d st => ?_⟩
  · cases d <;> cases st <;>
      simp [repairIsOverdue, specIsOverdue, specRepairTerminal]
  · cases d <;> cases st <;>
      simp [serviceIsOverdue, specIsOverdue, specServiceTerminal]
  · cases d <;> cases st <;>
      simp [billIsOverdue, specIsOverdue, specBillTerminal]

/-! ## Service save (`services/models.py`) -/

/-- The `Service` fields the completion claims touch. -/
structure ServiceState where
  status : ServiceStatus
  completed_date : Option Int
deriving DecidableEq

/-- `Service.save` (`services/models.py`): stamps `completed_date` when
status is `completed` and the date is unset, and clears it when status
is not `completed` but the date is set. -/
def serviceSave (now : Int) (st : ServiceState) : ServiceState :=
  let st1 :=
    if st.status = .completed ∧ st.completed_date = none then
      { st with completed_date := some now }
    else st
  if st1.status ≠ .completed ∧ st1.completed_date ≠ none then
    { st1 with completed_date := none }
  else st1

/-! ## Claim C10 -/

/-- Claim C10: after every save, `completed_date` is set iff the status
is `completed`; a save in status `completed` stamps the current time
when the date was unset and keeps it when already set; a save in any
other status clears it; and leaving `completed` and re-entering it
re-stamps the date with the later time (the side effect is not
one-shot). -/
theorem c10_completed_date_invariant :
    (∀ (now : Int) (st : ServiceState),
      (serviceSave now st).completed_date ≠ none ↔ st.status = .completed)
    ∧ (∀ (now : Int) (st : ServiceState), st.status = .completed →
        st.completed_date = none →
        (serviceSave now st).completed_date = some now)
    ∧ (∀ (now : Int) (st : ServiceState), st.status = .completed →
        st.completed_date ≠ none →
        (serviceSave now st).completed_date = st.completed_date)
    ∧ (∀ (now : Int) (st : ServiceState), st.status ≠ .completed →
        (serviceSave now st).completed_date = none)
    ∧ (∀ (st : ServiceState) (now1 now2 : Int),
        (serviceSave now2
          { serviceSave now1 { st with status := .in_progress } with
            status := .completed }).completed_date = some now2) := by
  refine ⟨fun now st => ?_, fun now st h1 h2 => ?_, fun now st h1 h2 => ?_,
    fun now st h1 => ?_, fun st now1 now2 => ?_⟩
  · by_cases h1 : st.status = .completed <;>
      rcases h2 : st.completed_date with _ | t <;>
      simp [serviceSave, h1, h2]
  · simp [serviceSave, h1, h2]
  · rcases h3 : st.completed_date with _ | t
    · exact absurd h3 h2
    · simp [serviceSave, h1, h3]
  · rcases h2 : st.completed_date with _ | t <;> simp [serviceSave, h1, h2]
  · rcases h2 : st.completed_date with _ | t <;> simp [serviceSave, h2]

/-- Claim C10 witness: the invariant and stamping at concrete states —
completing an in-progress service at `now = 7` stamps `7`; saving it
back to `in_progress` clears the date; re-completing at `9` stamps `9`. -/
theorem c10_witness :
    (serviceSave 7 { status := .completed, completed_date := none }).completed_date
      = some 7
    ∧ (serviceSave 8 { status := .in_progress, completed_date := some 7 }).completed_date
      = none
    ∧ (serviceSave 9 { status := .completed, completed_date := none }).completed_date
      = some 9
    ∧ (serviceSave 9 { status := .completed, completed_date := some 7 }).completed_date
      = some 7 :=
  ⟨c10_completed_date_invariant.2.1 7 _ rfl rfl,
    c10_completed_date_invariant.2.2.2.1 8 _ (by decide),
    c10_completed_date_invariant.2.1 9 _ rfl rfl,
    c10_completed_date_invariant.2.2.1 9 _ rfl (by decide)⟩

/-! ## CodeSequencer: code generation (claims C3, C8, C9) -/

/-- Python string `<`: lexicographic comparison of the character lists. -/
def charListLt : List Char → List Char → Bool
  | [], [] => false
  | [], _ :: _ => true
  | _ :: _, [] => false
  | a :: as, b :: bs =>
    if a < b then true else if a = b then charListLt as bs else false

/-- Django `field__startswith` on character lists. -/
def startsWithChars : List Char → List Char → Bool
  | [], _ => true
  | _ :: _, [] => false
  | a :: as, b :: bs => a = b && startsWithChars as bs

theorem charListLt_irrefl (a : List Char) : charListLt a a = false := by
  induction a with
  | nil => rfl
  | cons h t ih => simp [charListLt, ih, lt_irrefl]

theorem charListLt_trans {a b c : List Char} (h1 : charListLt a b = true)
    (h2 : charListLt b c = true) : charListLt a c = true := by
  induction a generalizing b c with
  | nil =>
    cases b with
    | nil => simp [charListLt] at h1
    | cons bh bt =>
      cases c with
      | nil => simp [charListLt] at h2
      | cons ch ct => rfl
  | cons ah at' ih =>
    cases b with
    | nil => simp [charListLt] at h1
    | cons bh bt =>
      cases c with
      | nil => simp [charListLt] at h2
      | cons ch ct =>
        simp only [charListLt] at h1 h2 ⊢
        by_cases hab : ah < bh
        · by_cases hbc : bh < ch
          · simp [lt_trans hab hbc]
          · by_cases hbc2 : bh = ch
            · subst hbc2; simp [hab]
            · simp [hbc, hbc2] at h2
        · by_cases hab2 : ah = bh
          · subst hab2
            rw [if_neg (lt_irrefl ah), if_pos rfl] at h1
            by_cases hbc : ah < ch
            · simp [hbc]
            · by_cases hbc2 : ah = ch
              · subst hbc2
                rw [if_neg (lt_irrefl ah), if_pos rfl] at h2 ⊢
                exact ih h1 h2
              · simp [hbc, hbc2] at h2
          · simp [hab, hab2] at h1

theorem charListLt_append_left (p a b : List Char) :
    charListLt (p ++ a) (p ++ b) = charListLt a b := by
  induction p with
  | nil => rfl
  | cons h t ih => simp [charListLt, ih, lt_irrefl]

theorem startsWithChars_self_append (p q : List Char) :
    startsWithChars p (p ++ q) = true := by
  induction p with
  | nil => rfl
  | cons h t ih => simp [startsWithChars, ih]

/-- `order_by(code).last()` over the filtered queryset: the maximum code
under string order (codes are unique, so ties do not occur). -/
def lastByOrder? : List String → Option String
  | [] => none
  | c :: cs =>
    match lastByOrder? cs with
    | none => some c
    | some m => some (if charListLt m.data c.data then c else m)

theorem lastByOrder?_eq_none {l : List String} (h : lastByOrder? l = none) :
    l = [] := by
  cases l with
  | nil => rfl
  | cons c cs =>
    rcases h' : lastByOrder? cs with _ | m0 <;>
      simp [lastByOrder?, h'] at h

theorem lastByOrder?_mem : ∀ {l : List String} {m : String},
    lastByOrder? l = some m → m ∈ l := by
  intro l
  induction l with
  | nil => intro m h; simp [lastByOrder?] at h
  | cons c cs ih =>
    intro m h
    rcases h' : lastByOrder? cs with _ | m0
    · simp only [lastByOrder?, h'] at h
      cases h
      exact List.mem_cons_self _ _
    · simp only [lastByOrder?, h'] at h
      split_ifs at h with hlt
      · cases h; exact List.mem_cons_self _ _
      · cases h; exact List.mem_cons_of_mem _ (ih h')

theorem lastByOrder?_isMax : ∀ {l : List String} {m : String},
    lastByOrder? l = some m → ∀ x ∈ l, charListLt m.data x.data = false := by
  intro l
  induction l with
  | nil => intro m h; simp [lastByOrder?] at h
  | cons c cs ih =>
    intro m h x hx
    rcases h' : lastByOrder? cs with _ | m0
    · have hcs := lastByOrder?_eq_none h'
      subst hcs
      simp only [lastByOrder?] at h
      cases h
      simp only [List.mem_singleton] at hx
      subst hx
      exact charListLt_irrefl _
    · simp only [lastByOrder?, h'] at h
      rcases List.mem_cons.1 hx with rfl | hxcs
      · split_ifs at h with hlt
        · cases h; exact charListLt_irrefl _
        · cases h
          rw [Bool.eq_false_iff]
          exact hlt
      · split_ifs at h with hlt
        · cases h
          have hmax := ih h' x hxcs
          rw [Bool.eq_false_iff]
          intro hcx
          rw [charListLt_trans hlt hcx] at hmax
          simp at hmax
        · cases h; exact ih h' x hxcs

/-- Python `f"{n:04d}"`: the decimal digits of `n`, left-padded with
zeros to at least four characters. -/
def zeroPad4 (n : Nat) : String :=
  String.mk (List.replicate (4 - (Nat.repr n).data.length) '0' ++ (Nat.repr n).data)

/-- The four decimal digits of a number below 10000. -/
def digits4 (n : Nat) : List Char :=
  [Nat.digitChar (n / 1000), Nat.digitChar (n / 100 % 10),
    Nat.digitChar (n / 10 % 10), Nat.digitChar (n % 10)]

theorem toDigitsCore_of_lt_10 (fuel n : Nat) (ds : List Char) (h : n < 10)
    (hf : 1 ≤ fuel) :
    Nat.toDigitsCore 10 fuel n ds = Nat.digitChar n :: ds := by
  cases fuel with
  | zero => omega
  | succ f =>
    have h1 : n / 10 = 0 := Nat.div_eq_of_lt h
    have h2 : n % 10 = n := Nat.mod_eq_of_lt h
    simp [Nat.toDigitsCore, h1, h2]

theorem toDigitsCore_two (fuel n : Nat) (ds : List Char) (h1 : 10 ≤ n)
    (h2 : n < 100) (hf : 2 ≤ fuel) :
    Nat.toDigitsCore 10 fuel n ds
      = Nat.digitChar (n / 10) :: Nat.digitChar (n % 10) :: ds := by
  cases fuel with
  | zero => omega
  | succ f =>
    have hne : ¬ n / 10 = 0 := by omega
    simp only [Nat.toDigitsCore, hne, if_false]
    rw [toDigitsCore_of_lt_10 f (n / 10) _ (by omega) (by omega)]

theorem toDigitsCore_three (fuel n : Nat) (ds : List Char) (h1 : 100 ≤ n)
    (h2 : n < 1000) (hf : 3 ≤ fuel) :
    Nat.toDigitsCore 10 fuel n ds
      = Nat.digitChar (n / 100) :: Nat.digitChar (n / 10 % 10)
        :: Nat.digitChar (n % 10) :: ds := by
  cases fuel with
  | zero => omega
  | succ f =>
    have hne : ¬ n / 10 = 0 := by omega
    simp only [Nat.toDigitsCore, hne, if_false]
    rw [toDigitsCore_two f (n / 10) _ (by omega) (by omega) (by omega)]
    have e1 : n / 10 / 10 = n / 100 := by omega
    have e2 : n / 10 % 10 = n / 10 % 10 := rfl
    rw [e1]

theorem toDigitsCore_four (fuel n : Nat) (ds : List Char) (h1 : 1000 ≤ n)
    (h2 : n < 10000) (hf : 4 ≤ fuel) :
    Nat.toDigitsCore 10 fuel n ds
      = Nat.digitChar (n / 1000) :: Nat.digitChar (n / 100 % 10)
        :: Nat.digitChar (n / 10 % 10) :: Nat.digitChar (n % 10) :: ds := by
  cases fuel with
  | zero => omega
  | succ f =>
    have hne : ¬ n / 10 = 0 := by omega
    simp only [Nat.toDigitsCore, hne, if_false]
    rw [toDigitsCore_three f (n / 10) _ (by omega) (by omega) (by omega)]
    have e1 : n / 10 / 100 = n / 1000 := by omega
    have e2 : n / 10 / 10 % 10 = n / 100 % 10 := by omega
    rw [e1, e2]

theorem repr_data_eq (n : Nat) (h : n < 10000) :
    (Nat.repr n).data
      = if n < 10 then [Nat.digitChar n]
        else if n < 100 then [Nat.digitChar (n / 10), Nat.digitChar (n % 10)]
        else if n < 1000 then
          [Nat.digitChar (n / 100), Nat.digitChar (n / 10 % 10),
            Nat.digitChar (n % 10)]
        else digits4 n := by
  show (Nat.toDigits 10 n).asString.data = _
  rw [Nat.toDigits]
  by_cases c1 : n < 10
  · rw [toDigitsCore_of_lt_10 (n + 1) n [] c1 (by omega)]
    simp [c1, List.asString]
  · by_cases c2 : n < 100
    · rw [toDigitsCore_two (n + 1) n [] (by omega) c2 (by omega)]
      simp [c1, c2, List.asString]
    · by_cases c3 : n < 1000
      · rw [toDigitsCore_three (n + 1) n [] (by omega) c3 (by omega)]
        simp [c1, c2, c3, List.asString]
      · rw [toDigitsCore_four (n + 1) n [] (by omega) h (by omega)]
        simp [c1, c2, c3, List.asString, digits4]

theorem digitChar_zero : Nat.digitChar 0 = '0' := rfl

theorem zeroPad4_eq_digits4 (n : Nat) (h : n < 10000) :
    (zeroPad4 n).data = digits4 n := by
  show (List.replicate (4 - (Nat.repr n).data.length) '0'
    ++ (Nat.repr n).data) = digits4 n
  rw [repr_data_eq n h]
  by_cases c1 : n < 10
  · have e0 : n / 1000 = 0 := by omega
    have e1 : n / 100 % 10 = 0 := by omega
    have e2 : n / 10 % 10 = 0 := by omega
    have e3 : n % 10 = n := by omega
    simp [c1, digits4, e0, e1, e2, e3, List.replicate, digitChar_zero]
  · by_cases c2 : n < 100
    · have e0 : n / 1000 = 0 := by omega
      have e1 : n / 100 % 10 = 0 := by omega
      have e2 : n / 10 % 10 = n / 10 := by omega
      simp [c1, c2, digits4, e0, e1, e2, List.replicate, digitChar_zero]
    · by_cases c3 : n < 1000
      · have e0 : n / 1000 = 0 := by omega
        have e1 : n / 100 % 10 = n / 100 := by omega
        simp [c1, c2, c3, digits4, e0, e1, List.replicate, digitChar_zero]
      · simp [c1, c2, c3, digits4, List.replicate]

theorem zeroPad4_length (n : Nat) (h : n < 10000) :
    (zeroPad4 n).data.length = 4 := by
  rw [zeroPad4_eq_digits4 n h]; rfl

theorem digitChar_lt_iff : ∀ a, a < 10 → ∀ b, b < 10 →
    ((Nat.digitChar a < Nat.digitChar b) ↔ a < b) := by decide

theorem digitChar_eq_iff : ∀ a, a < 10 → ∀ b, b < 10 →
    ((Nat.digitChar a = Nat.digitChar b) ↔ a = b) := by decide

theorem digitChar_isDigit : ∀ a, a < 10 →
    (Nat.digitChar a).isDigit = true := by decide

theorem digitChar_toNat : ∀ a, a < 10 →
    (Nat.digitChar a).toNat = 48 + a := by decide

theorem digits4_lt {k n : Nat} (hkn : k < n) (hn : n < 10000) :
    charListLt (digits4 k) (digits4 n) = true := by
  have hk : k < 10000 := lt_trans hkn hn
  have bk3 : k / 1000 < 10 := by omega
  have bk2 : k / 100 % 10 < 10 := by omega
  have bk1 : k / 10 % 10 < 10 := by omega
  have bk0 : k % 10 < 10 := by omega
  have bn3 : n / 1000 < 10 := by omega
  have bn2 : n / 100 % 10 < 10 := by omega
  have bn1 : n / 10 % 10 < 10 := by omega
  have bn0 : n % 10 < 10 := by omega
  simp only [digits4, charListLt,
    digitChar_lt_iff _ bk3 _ bn3, digitChar_eq_iff _ bk3 _ bn3,
    digitChar_lt_iff _ bk2 _ bn2, digitChar_eq_iff _ bk2 _ bn2,
    digitChar_lt_iff _ bk1 _ bn1, digitChar_eq_iff _ bk1 _ bn1,
    digitChar_lt_iff _ bk0 _ bn0, digitChar_eq_iff _ bk0 _ bn0]
  split_ifs <;> first | rfl | (exfalso; omega)

theorem zeroPad4_lt {k n : Nat} (hkn : k < n) (hn : n < 10000) :
    charListLt (zeroPad4 k).data (zeroPad4 n).data = true := by
  rw [zeroPad4_eq_digits4 k (lt_trans hkn hn), zeroPad4_eq_digits4 n hn]
  exact digits4_lt hkn hn

/-- Python `code[-4:]` (for strings of length `< 4` it yields the whole
string, as in Python). -/
def pyLast4 (s : String) : String :=
  String.mk (s.data.drop (s.data.length - 4))

/-- Python `int()` on the strings reachable here: an unsigned run of
decimal digits parses to its value; anything else (as `"ABCD"`) raises
`ValueError`, modelled as `none`. -/
def pyParseNat? (s : String) : Option Nat :=
  if s.data ≠ [] ∧ s.data.all Char.isDigit then
    some (s.data.foldl (fun n c => n * 10 + (c.toNat - 48)) 0)
  else none

theorem pyParseNat?_zeroPad4 (n : Nat) (h : n < 10000) :
    pyParseNat? (zeroPad4 n) = some n := by
  have hd := zeroPad4_eq_digits4 n h
  have bn3 : n / 1000 < 10 := by omega
  have bn2 : n / 100 % 10 < 10 := by omega
  have bn1 : n / 10 % 10 < 10 := by omega
  have bn0 : n % 10 < 10 := by omega
  have hcond : (zeroPad4 n).data ≠ [] ∧ (zeroPad4 n).data.all Char.isDigit := by
    rw [hd]
    refine ⟨by simp [digits4], ?_⟩
    simp [digits4, List.all, digitChar_isDigit _ bn3, digitChar_isDigit _ bn2,
      digitChar_isDigit _ bn1, digitChar_isDigit _ bn0]
  rw [pyParseNat?, if_pos hcond, hd]
  simp only [digits4, List.foldl,
    digitChar_toNat _ bn3, digitChar_toNat _ bn2,
    digitChar_toNat _ bn1, digitChar_toNat _ bn0]
  congr 1
  omega

theorem str_data_append (s t : String) : (s ++ t).data = s.data ++ t.data := by
  cases s; cases t; rfl

theorem str_mk_data (s : String) : String.mk s.data = s := by
  cases s; rfl

theorem zeroPad4_one : zeroPad4 1 = "0001" := rfl

/-- The common body of `Repair.generate_repair_code`,
`Bill.generate_bill_number` and `License.generate_license_number`:
filter the table to the codes starting with `pfx` (prefix plus `YYYYMM`
bucket), take the last under `order_by` (the string maximum), parse its
final four characters with `int()`, and emit `pfx` plus the zero-padded
successor; on no match or a `ValueError` the sequence number is 1. -/
def generateCode (pfx : String) (existing : List String) : String :=
  match lastByOrder? (existing.filter fun c => startsWithChars pfx.data c.data) with
  | none => pfx ++ zeroPad4 1
  | some last =>
    match pyParseNat? (pyLast4 last) with
    | some n => pfx ++ zeroPad4 (n + 1)
    | none => pfx ++ zeroPad4 1

theorem generateCode_empty (pfx : String) (existing : List String)
    (H : ∀ c ∈ existing, startsWithChars pfx.data c.data = false) :
    generateCode pfx existing = pfx ++ zeroPad4 1 := by
  have hfil : existing.filter (fun c => startsWithChars pfx.data c.data) = [] := by
    rw [List.filter_eq_nil_iff]
    intro a ha
    simp [H a ha]
  simp only [generateCode, hfil, lastByOrder?]

theorem generateCode_dense (pfx : String) (existing : List String) (n : Nat)
    (hn1 : 1 ≤ n) (hn : n < 10000)
    (H1 : ∀ c ∈ existing, startsWithChars pfx.data c.data = true →
      ∃ k, k < n + 1 ∧ 1 ≤ k ∧ c = pfx ++ zeroPad4 k)
    (H2 : (pfx ++ zeroPad4 n) ∈ existing) :
    generateCode pfx existing = pfx ++ zeroPad4 (n + 1) := by
  have hsw : startsWithChars pfx.data (pfx ++ zeroPad4 n).data = true := by
    rw [str_data_append]
    exact startsWithChars_self_append _ _
  have hmemb : (pfx ++ zeroPad4 n)
      ∈ existing.filter (fun c => startsWithChars pfx.data c.data) :=
    List.mem_filter.2 ⟨H2, hsw⟩
  rcases hl : lastByOrder?
      (existing.filter fun c => startsWithChars pfx.data c.data) with _ | m
  · rw [lastByOrder?_eq_none hl] at hmemb
    simp at hmemb
  · have hmm := lastByOrder?_mem hl
    obtain ⟨hmex, hmsw⟩ := List.mem_filter.1 hmm
    obtain ⟨k, hkb, hk1, hkeq⟩ := H1 m hmex hmsw
    have hkeqn : k = n := by
      by_contra hne
      have hlt : charListLt m.data (pfx ++ zeroPad4 n).data = true := by
        rw [hkeq, str_data_append, str_data_append, charListLt_append_left]
        exact zeroPad4_lt (by omega) hn
      have hmax := lastByOrder?_isMax hl _ hmemb
      rw [hmax] at hlt
      simp at hlt
    subst hkeqn
    have hparse : pyParseNat? (pyLast4 m) = some k := by
      rw [hkeq, pyLast4, str_data_append, List.length_append,
        zeroPad4_length k hn]
      have e : pfx.data.length + 4 - 4 = pfx.data.length := by omega
      rw [e, List.drop_left, str_mk_data]
      exact pyParseNat?_zeroPad4 k hn
    simp only [generateCode, hl, hparse]

theorem c3_sequential_codes :
    (∀ (pfx : String) (existing : List String),
      (∀ c ∈ existing, startsWithChars pfx.data c.data = false) →
      generateCode pfx existing = pfx ++ "0001")
    ∧ (∀ (pfx : String) (existing : List String) (n : Nat),
      1 ≤ n → n ≤ 9998 →
      (∀ c ∈ existing, startsWithChars pfx.data c.data = true →
        ∃ k, k < n + 1 ∧ 1 ≤ k ∧ c = pfx ++ zeroPad4 k) →
      (pfx ++ zeroPad4 n) ∈ existing →
      generateCode pfx existing = pfx ++ zeroPad4 (n + 1)
      ∧ generateCode pfx ((pfx ++ zeroPad4 (n + 1)) :: existing)
        = pfx ++ zeroPad4 (n + 2)) := by
  constructor
  · intro pfx existing H
    rw [generateCode_empty pfx existing H, zeroPad4_one]
  · intro pfx existing n hn1 hn2 H1 H2
    refine ⟨generateCode_dense pfx existing n hn1 (by omega) H1 H2, ?_⟩
    apply generateCode_dense pfx _ (n + 1) (by omega) (by omega)
    · intro c hc hsw
      rcases List.mem_cons.1 hc with rfl | hcex
      · exact ⟨n + 1, by omega, by omega, rfl⟩
      · obtain ⟨k, hkb, hk1, hkeq⟩ := H1 c hcex hsw
        exact ⟨k, by omega, hk1, hkeq⟩
    · exact List.mem_cons_self _ _

theorem c3_witness :
    ((∀ c ∈ ["XYZ0001"], startsWithChars ("BILL202510" : String).data c.data = false)
      ∧ generateCode "BILL202510" ["XYZ0001"] = "BILL202510" ++ "0001")
    ∧ (1 : Nat) ≤ 2 ∧ (2 : Nat) ≤ 9998
    ∧ (∀ c ∈ ["XYZ0001", "RPR2025100001", "RPR2025100002"],
        startsWithChars ("RPR202510" : String).data c.data = true →
        ∃ k, k < 2 + 1 ∧ 1 ≤ k ∧ c = "RPR202510" ++ zeroPad4 k)
    ∧ ("RPR202510" ++ zeroPad4 2) ∈ ["XYZ0001", "RPR2025100001", "RPR2025100002"]
    ∧ generateCode "RPR202510" ["XYZ0001", "RPR2025100001", "RPR2025100002"]
      = "RPR202510" ++ zeroPad4 (2 + 1)
    ∧ generateCode "RPR202510"
        (("RPR202510" ++ zeroPad4 (2 + 1)) :: ["XYZ0001", "RPR2025100001", "RPR2025100002"])
      = "RPR202510" ++ zeroPad4 (2 + 2) := by
  refine ⟨⟨by decide, c3_sequential_codes.1 _ _ (by decide)⟩,
    by decide, by decide, by decide, by decide, ?_, ?_⟩
  · exact (c3_sequential_codes.2 "RPR202510" _ 2 (by decide) (by decide)
      (by decide) (by decide)).1
  · exact (c3_sequential_codes.2 "RPR202510" _ 2 (by decide) (by decide)
      (by decide) (by decide)).2

/-- `Repair.generate_repair_code` (`Rapair/models.py`):
`prefix = f"RPR{now.strftime('%Y%m')}"`. -/
def generate_repair_code (yyyymm : String) (existing : List String) : String :=
  generateCode ("RPR" ++ yyyymm) existing

/-- `Bill.generate_bill_number` (`bill/models.py`):
`prefix = f"BILL{now.strftime('%Y%m')}"`. -/
def generate_bill_number (yyyymm : String) (existing : List String) : String :=
  generateCode ("BILL" ++ yyyymm) existing

/-- `License.generate_license_number` (`license/models.py`):
`prefix = f"LIC{now.strftime('%Y%m')}"`. -/
def generate_license_number (yyyymm : String) (existing : List String) : String :=
  generateCode ("LIC" ++ yyyymm) existing

theorem c9_counterexample :
    generate_repair_code "202510" ["RPR2025100001", "RPR202510ABCD"]
      = "RPR2025100001"
    ∧ "RPR2025100001" ∈ ["RPR2025100001", "RPR202510ABCD"] :=
  ⟨by decide, by decide⟩

theorem c9_amended (pfx : String) (existing : List String) (m : String)
    (h1 : lastByOrder?
      (existing.filter fun c => startsWithChars pfx.data c.data) = some m)
    (h2 : pyParseNat? (pyLast4 m) = none) :
    generateCode pfx existing = pfx ++ "0001" := by
  simp only [generateCode, h1, h2, zeroPad4_one]

theorem c9_witness :
    lastByOrder? (["RPR2025100001", "RPR202510ABCD"].filter
      fun c => startsWithChars ("RPR202510" : String).data c.data)
        = some "RPR202510ABCD"
    ∧ pyParseNat? (pyLast4 "RPR202510ABCD") = none
    ∧ generateCode "RPR202510" ["RPR2025100001", "RPR202510ABCD"]
      = "RPR202510" ++ "0001" :=
  ⟨by decide, by decide,
    c9_amended "RPR202510" ["RPR2025100001", "RPR202510ABCD"]
      "RPR202510ABCD" (by decide) (by decide)⟩

/-- The only error the create path can raise: the database uniqueness
violation on the generated code. -/
inductive SaveError where
  | uniqueViolation
deriving DecidableEq

/-- The create path of `Bill.save` (`bill/models.py`): when
`bill_number` is empty it is generated from the rows read at that moment
(`dbAtGenerate`); the row is then inserted, and the database uniqueness
constraint checks the rows present at insert time (`dbAtInsert` — these
differ from `dbAtGenerate` exactly when a concurrent writer committed in
between).  There is no try/except and no retry loop around the insert:
a collision propagates to the caller as the raw constraint error. -/
def billCreateSave (dbAtGenerate dbAtInsert : List String)
    (bill_number yyyymm : String) : Except SaveError String :=
  let code :=
    if bill_number = "" then generate_bill_number yyyymm dbAtGenerate
    else bill_number
  if code ∈ dbAtInsert then .error .uniqueViolation else .ok code

theorem c8_no_retry :
    billCreateSave [] ["BILL2025100001"] "" "202510"
      = .error .uniqueViolation := rfl

end TharadiSewa
